import Mathlib

/-!
Shallow embedding of the pugbot session state machine.

Namespace `Pug` embeds `src/pug.py`, the two-state variant present in the
repository: `IdleState.next` (reaction tallying, afk pruning, random host and
team selection) and `RunningState.next` (completion detection).  Randomness
(`random.choice` / `random.sample`) is made explicit as a stream of natural
numbers used as indices; fallible code is embedded in `Except`.

Namespace `Rich` models the five-state variant (`src/states.py`) that the
repository's test suite (`src/tests/test_states.py`) imports but whose source
file is absent from the repository; its definitions are modelled from the
specification, as marked on each doc comment.
-/

namespace Pug

/-- Presence status of a guild member (discord `Status`); `pug.py` only
distinguishes `online` from everything else. -/
inductive Status where
  | online
  | idle
  | dnd
  | offline
  deriving DecidableEq

/-- A chat user as seen by `pug.py`: `uid` and `uname` identify the account,
`isMember` says whether the object is a guild `Member` (only members carry a
meaningful presence `status`), and `isOwner` marks the bot application owner
(`bot.is_owner`). -/
structure User where
  uid : Nat
  uname : String
  isMember : Bool
  status : Status
  isOwner : Bool
  deriving DecidableEq

instance : Inhabited User := ⟨⟨0, ("") , false, Status.online, false⟩⟩

/-- A reaction on the tracked message: an emoji together with the users who
placed it (discord `Reaction`; `count` is the number of reacting users). -/
structure Reaction where
  emoji : String
  users : List User
  deriving DecidableEq

/-- The two states of `pug.py` (`IdleState`, `RunningState`), with the fields
the transition functions read and write: the pending `notice` message and the
tallied or drafted users.  The `bot`/`msg` fields of the Python dataclasses are
passed to the embedded functions as arguments instead. -/
inductive PugSt where
  | idle (notice : Option String) (hosts players : List User)
  | running (notice : Option String) (host : User) (red blu : List User)
  deriving DecidableEq

/-- `HOST_EMOJI` of `pug.py` (regional indicator H). -/
def HOST_EMOJI : String := "🇭"

/-- `DONE_EMOJI` of `pug.py` (white heavy check mark). -/
def DONE_EMOJI : String := "✅"

/-- `MAX_PLAYERS = 12` from `pug.py`. -/
def MAX_PLAYERS : Nat := 12

/-- `hosts` tally of `IdleState.next`: the distinct users of the reactions
whose emoji is `HOST_EMOJI`, minus the bot user
(`frozenset(u for r in host_reacts for u in r.users()) - {self.bot.user}`). -/
def hostsOf (bot : User) (reacts : List Reaction) : List User :=
  (((reacts.filter (fun r => decide (r.emoji = HOST_EMOJI))).flatMap Reaction.users).dedup).filter
    (fun u => decide (u ≠ bot))

/-- `players` tally of `IdleState.next`: the distinct users of the reactions
whose emoji is not `HOST_EMOJI`, minus the bot user. -/
def playersOf (bot : User) (reacts : List Reaction) : List User :=
  (((reacts.filter (fun r => decide (¬ r.emoji = HOST_EMOJI))).flatMap Reaction.users).dedup).filter
    (fun u => decide (u ≠ bot))

/-- `is_afk` from `IdleState.next`:
`isinstance(user, Member) and user.status != Status.online`. -/
def isAfk (u : User) : Bool :=
  u.isMember && decide (u.status ≠ Status.online)

/-- `afks = list(filter(is_afk, hosts | players))` from `IdleState.next`. -/
def afksOf (bot : User) (reacts : List Reaction) : List User :=
  ((hostsOf bot reacts ++ playersOf bot reacts).dedup).filter isAfk

/-- `strjoin` from `pug.py`. -/
def strjoin (l : List String) : String :=
  String.intercalate (", ") l

/-- Content of the notice sent by `IdleState.next` when afk users are pruned:
`f"Removing afk players: {strjoin(afks)}"` (users rendered by name). -/
def afkNotice (afks : List User) : String :=
  ("Removing afk players: ") ++ strjoin (afks.map User.uname)

/-- Effect of `react.remove(user) for user in afks for react in new_msg.reactions`
followed by re-fetching the message: every afk user's entry disappears from
every reaction's user list. -/
def pruneReacts (afks : List User) (reacts : List Reaction) : List Reaction :=
  reacts.map (fun r => { r with users := r.users.filter (fun u => decide (u ∉ afks)) })

/-- Total number of user entries across all reactions (termination measure for
the afk-pruning recursion of `IdleState.next`). -/
def totalUsers (reacts : List Reaction) : Nat :=
  (reacts.map (fun r => r.users.length)).sum

/-- `random.sample(population, k)`: draw `k` distinct elements from the pool.
The random stream is explicit: each draw takes the next stream value modulo
the current pool size as the index of the chosen element, which is then
removed from the pool. -/
def sampleL (seed : List Nat) : Nat → List User → List User
  | 0, _ => []
  | _ + 1, [] => []
  | k + 1, x :: xs =>
      let u := (x :: xs).getD (seed.headD 0 % (x :: xs).length) default
      u :: sampleL seed.tail k ((x :: xs).erase u)

/-- `team_size = min(MAX_PLAYERS, len(players)) // 2` from `IdleState.next`. -/
def teamSizeOf (players : List User) : Nat :=
  min MAX_PLAYERS players.length / 2

/-- The match-start tail of `IdleState.next`: `host = random.choice(list(hosts))`,
`players = random.sample(players, k=team_size * 2)`,
`red, blu = players[:team_size], players[team_size:]`,
`return RunningState(bot, None, self.notice, host, red, blu)`.
The `random.choice` draw is the head of the explicit random stream. -/
def pugStart (notice : Option String) (hosts players : List User) (seed : List Nat) : PugSt :=
  let host := hosts.getD (seed.headD 0 % hosts.length) default
  let ts := teamSizeOf players
  let picked := sampleL seed.tail (ts * 2) players
  PugSt.running notice host (picked.take ts) (picked.drop ts)

/-- `IdleState.next` from `pug.py`.  Tally `hosts`/`players` from the current
reactions; while waiting for people, stay idle (carrying the tallies); if the
quorum is met but some reacting users are afk guild members, send a notice,
remove their reactions and try again on the pruned reactions; otherwise start
the pug with a random host and randomly sampled teams. -/
def pugIdleNext (bot : User) (mp : Nat) (notice : Option String) (reacts : List Reaction)
    (seed : List Nat) : PugSt :=
  if (hostsOf bot reacts).length < 1 ∨ (playersOf bot reacts).length < mp then
    PugSt.idle notice (hostsOf bot reacts) (playersOf bot reacts)
  else if h : afksOf bot reacts = [] then
    pugStart notice (hostsOf bot reacts) (playersOf bot reacts) seed
  else
    pugIdleNext bot mp (some (afkNotice (afksOf bot reacts)))
      (pruneReacts (afksOf bot reacts) reacts) seed
termination_by totalUsers reacts
decreasing_by
  have hmem : ∀ u : User, u ∈ hostsOf bot reacts ∨ u ∈ playersOf bot reacts →
      ∃ r ∈ reacts, u ∈ r.users := by
    intro u hu
    rcases hu with hu | hu
    · simp only [hostsOf, List.mem_filter, List.mem_dedup, List.mem_flatMap] at hu
      obtain ⟨⟨r, hr, hur⟩, -⟩ := hu
      exact ⟨r, hr.1, hur⟩
    · simp only [playersOf, List.mem_filter, List.mem_dedup, List.mem_flatMap] at hu
      obtain ⟨⟨r, hr, hur⟩, -⟩ := hu
      exact ⟨r, hr.1, hur⟩
  obtain ⟨a, ha⟩ := List.exists_mem_of_ne_nil _ h
  have haA : a ∈ afksOf bot reacts := ha
  have ha2 : a ∈ hostsOf bot reacts ∨ a ∈ playersOf bot reacts := by
    have := (List.mem_filter.mp ha).1
    simpa [List.mem_append] using List.mem_dedup.mp this
  obtain ⟨r0, hr0, hur0⟩ := hmem a ha2
  show totalUsers (pruneReacts (afksOf bot reacts) reacts) < totalUsers reacts
  simp only [totalUsers, pruneReacts, List.map_map, Function.comp_def]
  refine List.sum_lt_sum _ _ (fun r _ => List.length_filter_le _ _) ⟨r0, hr0, ?_⟩
  refine Nat.lt_of_le_of_ne (List.length_filter_le _ _) (fun he => ?_)
  have := (List.filter_length_eq_length.mp he) a hur0
  simp [haA] at this

/-- `RunningState.next` from `pug.py`.  `utils.get(msg.reactions, emoji=DONE_EMOJI)`
yields the first reaction with the done emoji, or `None`; reading `.count` on
`None` raises `AttributeError`, embedded as `Except.error ()`.  If the count
exceeds 2 or the bot owner is among the reactors, a fresh `IdleState` (empty
tallies, same notice) is returned; otherwise the function falls off the end and
returns Python `None`, embedded as `Except.ok none`. -/
def pugRunningNext (notice : Option String) (host : User) (red blu : List User)
    (reacts : List Reaction) : Except Unit (Option PugSt) :=
  match reacts.find? (fun r => decide (r.emoji = DONE_EMOJI)) with
  | none => Except.error ()
  | some dr =>
      if 2 < dr.users.length ∨ dr.users.any User.isOwner = true then
        Except.ok (some (PugSt.idle notice [] []))
      else
        Except.ok none

deriving instance DecidableEq for Except

/-- Observation: the sizes of the two rosters of a running state, if any. -/
def rosterSizes : PugSt → Option (Nat × Nat)
  | PugSt.running _ _ red blu => some (red.length, blu.length)
  | _ => none

/-- Observation: the members placed on either roster of a running state. -/
def rosterUsers : PugSt → List User
  | PugSt.running _ _ red blu => red ++ blu
  | _ => []

end Pug

namespace Rich

/-- Modelled from the spec: an emoji symbol; the spec treats emoji as opaque
distinct symbols, so they are coded as natural numbers here. -/
abbrev Emoji := Nat

/-- Modelled from the spec: a `Reaction` is a value "(user identifier, emoji
symbol)" with equality by the pair (§3); `src/states.py`, which defines
`React`, is absent from the repository. -/
structure React where
  uid : Nat
  emoji : Emoji
  deriving DecidableEq

/-- Modelled from the spec: the host-role emoji (`HOST_EMOJI` of the missing
`src/states.py`); only its distinctness from the other emoji symbols matters. -/
def HOST_EMOJI : Emoji := 0

/-- Modelled from the spec: the captain-role emoji (`CAPT_EMOJI` of the missing
`src/states.py`). -/
def CAPT_EMOJI : Emoji := 1

/-- Modelled from the spec: the admin "skip" override emoji (`SKIP_EMOJI` of
the missing `src/states.py`). -/
def SKIP_EMOJI : Emoji := 2

/-- Modelled from the spec: the admin "wait" override emoji (`WAIT_EMOJI` of
the missing `src/states.py`). -/
def WAIT_EMOJI : Emoji := 3

/-- Modelled from the spec: the admin "shuffle" override emoji
(`SHUFFLE_EMOJI` of the missing `src/states.py`). -/
def SHUFFLE_EMOJI : Emoji := 4

/-- Modelled from the spec: the "done" emoji used by RunningState
(`DONE_EMOJI` of the missing `src/states.py`). -/
def DONE_EMOJI : Emoji := 5

/-- Modelled from the spec: the admin override emojis; "admin reactions using
the override emojis never count as gameplay reactions" (§3). -/
def OVERRIDE_EMOJIS : List Emoji := [SKIP_EMOJI, WAIT_EMOJI, SHUFFLE_EMOJI]

/-- Modelled from the spec: the required exact host count, "1 host" (§3, §4.2);
`MIN_HOSTS` of the missing `src/states.py`. -/
def MIN_HOSTS : Nat := 1

/-- Modelled from the spec: the required exact captain count, "2 captains"
(§3, §4.2); `MIN_CAPTS` of the missing `src/states.py`. -/
def MIN_CAPTS : Nat := 2

/-- Modelled from the spec: `hostCandidates(reacts)` (§4.1) — users holding a
host-emoji reaction, with the bot's own reactions filtered out. -/
def hostCandidates (botId : Nat) (reacts : Finset React) : Finset Nat :=
  ((reacts.filter (fun r => r.emoji = HOST_EMOJI)).image React.uid).erase botId

/-- Modelled from the spec: `captainCandidates(reacts)` (§4.1) — users holding
a captain-emoji reaction, with the bot's own reactions filtered out. -/
def captainCandidates (botId : Nat) (reacts : Finset React) : Finset Nat :=
  ((reacts.filter (fun r => r.emoji = CAPT_EMOJI)).image React.uid).erase botId

/-- Modelled from the spec: `playerCandidates(reacts)` (§4.1, §3) — users
holding some gameplay (non-override, for admins) reaction other than the host
emoji, with the bot's own reactions filtered out; "a user holding only a host
reaction is excluded from the player set", "a captain is also counted as a
player". -/
def playerCandidates (botId : Nat) (adminIds : Finset Nat) (reacts : Finset React) : Finset Nat :=
  ((reacts.filter (fun r =>
      r.emoji ≠ HOST_EMOJI ∧ ¬ (r.uid ∈ adminIds ∧ r.emoji ∈ OVERRIDE_EMOJIS))).image
    React.uid).erase botId

/-- Modelled from the spec: the five session states Idle, Vote, Pick, Running,
Stopped (§2, §3) of the missing `src/states.py`, with the fields each adds:
Vote carries the candidate host/captain sets and the confirmed player set;
Pick carries host id, the two captain ids and the remaining pool; Running and
Stopped carry host id and the two ordered rosters. -/
inductive RState where
  | idle
  | vote (hostCands captCands players : Finset Nat)
  | pick (hostId : Nat) (captIds : Nat × Nat) (pool : Finset Nat)
  | run (hostId : Nat) (red blu : List Nat)
  | stopped (hostId : Nat) (red blu : List Nat)
  deriving DecidableEq

/-- Modelled from the spec: "deterministic selection — lowest id order" (§4.2);
the least element of a finite id set (0 on the empty set, which the callers
never hit). -/
def lowest (s : Finset Nat) : Nat :=
  s.min.untop' 0

/-- Modelled from the spec: the two captain ids "(team 0 / team 1, order fixed
at entry)" (§3), taken in lowest-id order: the least element and the least
remaining element. -/
def pairLow (s : Finset Nat) : Nat × Nat :=
  (lowest s, lowest (s.erase (lowest s)))

/-- Modelled from the spec: "If an admin holds the 'wait' override and does not
simultaneously hold the 'skip' override, remain Idle regardless of pool
sufficiency" (§4.2). -/
def adminStall (adminIds : Finset Nat) (reacts : Finset React) : Prop :=
  ∃ a ∈ adminIds, (⟨a, WAIT_EMOJI⟩ : React) ∈ reacts ∧ (⟨a, SKIP_EMOJI⟩ : React) ∉ reacts

instance (adminIds : Finset Nat) (reacts : Finset React) :
    Decidable (adminStall adminIds reacts) := by
  unfold adminStall; infer_instance

/-- Modelled from the spec: an admin "skip" override reaction is present
(§4.2). -/
def adminSkipHeld (adminIds : Finset Nat) (reacts : Finset React) : Prop :=
  ∃ a ∈ adminIds, (⟨a, SKIP_EMOJI⟩ : React) ∈ reacts

instance (adminIds : Finset Nat) (reacts : Finset React) :
    Decidable (adminSkipHeld adminIds reacts) := by
  unfold adminSkipHeld; infer_instance

/-- Modelled from the spec: "counts are ambiguous (too few or too many
candidates for a role, but player quorum is otherwise reachable)" (§4.2). -/
def ambiguous (botId : Nat) (adminIds : Finset Nat) (mp : Nat) (reacts : Finset React) : Prop :=
  mp ≤ (playerCandidates botId adminIds reacts).card ∧
    ((hostCandidates botId reacts).card ≠ MIN_HOSTS ∨
     (captainCandidates botId reacts).card ≠ MIN_CAPTS)

instance (botId : Nat) (adminIds : Finset Nat) (mp : Nat) (reacts : Finset React) :
    Decidable (ambiguous botId adminIds mp reacts) := by
  unfold ambiguous; infer_instance

/-- Modelled from the spec: the best-available candidate for a one-slot role
(§4.2): the lowest-id candidate, or the lowest-id player when the role has no
candidate. -/
def firstOne (cands pool : Finset Nat) : Nat :=
  if cands.Nonempty then lowest cands else lowest pool

/-- Modelled from the spec: the best-available pair for a two-slot role
(§4.2): the role's candidates in lowest-id order, topped up from the pool. -/
def firstTwo (cands pool : Finset Nat) : Nat × Nat :=
  if 2 ≤ cands.card then pairLow cands
  else if cands.card = 1 then (lowest cands, lowest (pool \ cands))
  else pairLow pool

/-- Modelled from the spec: the admin-skip path of Idle, "still advance to
PickState using best-available single/pair candidates (deterministic selection
— lowest id order) even under ambiguity" (§4.2). -/
def bestPick (botId : Nat) (adminIds : Finset Nat) (reacts : Finset React) : RState :=
  RState.pick (firstOne (hostCandidates botId reacts) (playerCandidates botId adminIds reacts))
    (firstTwo (captainCandidates botId reacts) (playerCandidates botId adminIds reacts))
    (playerCandidates botId adminIds reacts \
      {(firstTwo (captainCandidates botId reacts) (playerCandidates botId adminIds reacts)).1,
       (firstTwo (captainCandidates botId reacts) (playerCandidates botId adminIds reacts)).2})

/-- Modelled from the spec: `IdleState.on_update` of the missing
`src/states.py` (§4.2): admin "wait" (without "skip") stalls; exact candidate
counts with player quorum advance to PickState seeding host, the two captains
and the player pool with captains removed; ambiguity plus an admin "skip"
advances to PickState with best-available candidates; ambiguity otherwise
opens VoteState with the full candidate sets; insufficient player quorum
remains Idle. -/
def idleUpdate (botId : Nat) (adminIds : Finset Nat) (mp : Nat) (reacts : Finset React) :
    RState :=
  if adminStall adminIds reacts then
    RState.idle
  else if (hostCandidates botId reacts).card = MIN_HOSTS ∧
      (captainCandidates botId reacts).card = MIN_CAPTS ∧
      mp ≤ (playerCandidates botId adminIds reacts).card then
    RState.pick (lowest (hostCandidates botId reacts))
      (pairLow (captainCandidates botId reacts))
      (playerCandidates botId adminIds reacts \ captainCandidates botId reacts)
  else if ambiguous botId adminIds mp reacts ∧ adminSkipHeld adminIds reacts then
    bestPick botId adminIds reacts
  else if ambiguous botId adminIds mp reacts then
    RState.vote (hostCandidates botId reacts) (captainCandidates botId reacts)
      (playerCandidates botId adminIds reacts)
  else
    RState.idle

/-- Modelled from the spec: the distinct roster members currently holding a
"done" reaction (§4.5). -/
def doneRosterVotes (red blu : List Nat) (reacts : Finset React) : Finset Nat :=
  ((reacts.filter (fun r => r.emoji = DONE_EMOJI)).image React.uid).filter
    (fun u => u ∈ red ∨ u ∈ blu)

/-- Modelled from the spec: "an admin/owner override reaction" (§4.5) — a
reaction by an admin or the session owner using an override emoji. -/
def overrideHeld (adminIds : Finset Nat) (ownerId : Nat) (reacts : Finset React) : Prop :=
  ∃ r ∈ reacts, (r.uid ∈ adminIds ∨ r.uid = ownerId) ∧ r.emoji ∈ OVERRIDE_EMOJIS

instance (adminIds : Finset Nat) (ownerId : Nat) (reacts : Finset React) :
    Decidable (overrideHeld adminIds ownerId reacts) := by
  unfold overrideHeld; infer_instance

/-- Modelled from the spec: "A completion signal (either a quorum of 'done'
reactions from roster members, or an admin/owner override reaction)" (§4.5);
the quorum is the minimum distinct-voter count, "the same constant used for
minimum player count" (§4.3, glossary). -/
def completionSignal (adminIds : Finset Nat) (ownerId mp : Nat) (red blu : List Nat)
    (reacts : Finset React) : Prop :=
  mp ≤ (doneRosterVotes red blu reacts).card ∨ overrideHeld adminIds ownerId reacts

instance (adminIds : Finset Nat) (ownerId mp : Nat) (red blu : List Nat)
    (reacts : Finset React) : Decidable (completionSignal adminIds ownerId mp red blu reacts) := by
  unfold completionSignal; infer_instance

/-- Modelled from the spec: `RunningState.on_update` of the missing
`src/states.py` (§4.5): a completion signal transitions to StoppedState,
"snapshotting host and both rosters unchanged"; "absent a completion signal,
the state is unchanged (re-emitted as itself)". -/
def runningUpdate (adminIds : Finset Nat) (ownerId mp : Nat) (hostId : Nat)
    (red blu : List Nat) (reacts : Finset React) : RState :=
  if completionSignal adminIds ownerId mp red blu reacts then
    RState.stopped hostId red blu
  else
    RState.run hostId red blu

/-- Modelled from the spec: StoppedState is "terminal", it "emits no further
transitions" (§4.6) — its update yields no successor state for any reaction
set. -/
def stoppedNext (hostId : Nat) (red blu : List Nat) (reacts : Finset React) : Option RState :=
  none

end Rich

namespace Pug

/-- One-step unfolding of `pugIdleNext` (its defining equation, made usable as
a rewrite rule since the definition is by well-founded recursion). -/
theorem pugIdleNext_eq (bot : User) (mp : Nat) (notice : Option String)
    (reacts : List Reaction) (seed : List Nat) :
    pugIdleNext bot mp notice reacts seed =
      if (hostsOf bot reacts).length < 1 ∨ (playersOf bot reacts).length < mp then
        PugSt.idle notice (hostsOf bot reacts) (playersOf bot reacts)
      else if afksOf bot reacts = [] then
        pugStart notice (hostsOf bot reacts) (playersOf bot reacts) seed
      else
        pugIdleNext bot mp (some (afkNotice (afksOf bot reacts)))
          (pruneReacts (afksOf bot reacts) reacts) seed := by
  rw [pugIdleNext]
  simp [dite_eq_ite]

/-- While waiting for people (`len(hosts) < 1 or len(players) < MIN_PLAYERS`),
`IdleState.next` stays idle, carrying the tallies. -/
theorem pugIdleNext_stay (bot : User) (mp : Nat) (notice : Option String)
    (reacts : List Reaction) (seed : List Nat)
    (h : (hostsOf bot reacts).length < 1 ∨ (playersOf bot reacts).length < mp) :
    pugIdleNext bot mp notice reacts seed =
      PugSt.idle notice (hostsOf bot reacts) (playersOf bot reacts) := by
  rw [pugIdleNext_eq, if_pos h]

/-- With the quorum met and nobody afk, `IdleState.next` starts the pug. -/
theorem pugIdleNext_go (bot : User) (mp : Nat) (notice : Option String)
    (reacts : List Reaction) (seed : List Nat)
    (h1 : ¬ ((hostsOf bot reacts).length < 1 ∨ (playersOf bot reacts).length < mp))
    (h2 : afksOf bot reacts = []) :
    pugIdleNext bot mp notice reacts seed =
      pugStart notice (hostsOf bot reacts) (playersOf bot reacts) seed := by
  rw [pugIdleNext_eq, if_neg h1, if_pos h2]

/-- With the quorum met but some reacting user afk, `IdleState.next` sends the
notice, removes the afk users' reactions and recomputes on the pruned
reaction set. -/
theorem pugIdleNext_prune (bot : User) (mp : Nat) (notice : Option String)
    (reacts : List Reaction) (seed : List Nat)
    (h1 : ¬ ((hostsOf bot reacts).length < 1 ∨ (playersOf bot reacts).length < mp))
    (h2 : afksOf bot reacts ≠ []) :
    pugIdleNext bot mp notice reacts seed =
      pugIdleNext bot mp (some (afkNotice (afksOf bot reacts)))
        (pruneReacts (afksOf bot reacts) reacts) seed := by
  rw [pugIdleNext_eq, if_neg h1, if_neg h2]

/-- Membership in the host tally. -/
theorem mem_hostsOf {bot : User} {reacts : List Reaction} {u : User} :
    u ∈ hostsOf bot reacts ↔
      (∃ r ∈ reacts, r.emoji = HOST_EMOJI ∧ u ∈ r.users) ∧ u ≠ bot := by
  simp only [hostsOf, List.mem_filter, List.mem_dedup, List.mem_flatMap,
    decide_eq_true_eq]
  tauto

/-- Membership in the player tally. -/
theorem mem_playersOf {bot : User} {reacts : List Reaction} {u : User} :
    u ∈ playersOf bot reacts ↔
      (∃ r ∈ reacts, r.emoji ≠ HOST_EMOJI ∧ u ∈ r.users) ∧ u ≠ bot := by
  simp only [playersOf, List.mem_filter, List.mem_dedup, List.mem_flatMap,
    decide_eq_true_eq]
  tauto

/-- Membership in the afk list. -/
theorem mem_afksOf {bot : User} {reacts : List Reaction} {u : User} :
    u ∈ afksOf bot reacts ↔
      (u ∈ hostsOf bot reacts ∨ u ∈ playersOf bot reacts) ∧ isAfk u = true := by
  simp only [afksOf, List.mem_filter, List.mem_dedup, List.mem_append]

/-- With an empty afk list, every tallied host or player is not afk. -/
theorem noAfk_mem {bot : User} {reacts : List Reaction} {u : User}
    (h : afksOf bot reacts = [])
    (hu : u ∈ hostsOf bot reacts ∨ u ∈ playersOf bot reacts) : isAfk u = false := by
  by_contra hne
  have : u ∈ afksOf bot reacts := mem_afksOf.mpr ⟨hu, by revert hne; cases isAfk u <;> simp⟩
  rw [h] at this
  cases this

/-- The host tally of a pruned reaction set: the pruned-out users are gone and
nobody new appears. -/
theorem mem_hostsOf_prune {bot : User} {reacts : List Reaction} {A : List User} {u : User} :
    u ∈ hostsOf bot (pruneReacts A reacts) ↔ u ∈ hostsOf bot reacts ∧ u ∉ A := by
  simp only [mem_hostsOf, pruneReacts, List.mem_map, List.mem_filter, decide_eq_true_eq]
  constructor
  · rintro ⟨⟨r2, ⟨r, hr, rfl⟩, he, hu⟩, hne⟩
    simp only [List.mem_filter, decide_eq_true_eq] at hu
    exact ⟨⟨⟨r, hr, he, hu.1⟩, hne⟩, hu.2⟩
  · rintro ⟨⟨⟨r, hr, he, hu⟩, hne⟩, hA⟩
    refine ⟨⟨{ r with users := r.users.filter (fun u => decide (u ∉ A)) },
      ⟨r, hr, rfl⟩, he, ?_⟩, hne⟩
    simp only [List.mem_filter, decide_eq_true_eq]
    exact ⟨hu, hA⟩

/-- The player tally of a pruned reaction set. -/
theorem mem_playersOf_prune {bot : User} {reacts : List Reaction} {A : List User} {u : User} :
    u ∈ playersOf bot (pruneReacts A reacts) ↔ u ∈ playersOf bot reacts ∧ u ∉ A := by
  simp only [mem_playersOf, pruneReacts, List.mem_map, List.mem_filter, decide_eq_true_eq]
  constructor
  · rintro ⟨⟨r2, ⟨r, hr, rfl⟩, he, hu⟩, hne⟩
    simp only [List.mem_filter, decide_eq_true_eq] at hu
    exact ⟨⟨⟨r, hr, he, hu.1⟩, hne⟩, hu.2⟩
  · rintro ⟨⟨⟨r, hr, he, hu⟩, hne⟩, hA⟩
    refine ⟨⟨{ r with users := r.users.filter (fun u => decide (u ∉ A)) },
      ⟨r, hr, rfl⟩, he, ?_⟩, hne⟩
    simp only [List.mem_filter, decide_eq_true_eq]
    exact ⟨hu, hA⟩

/-- Pruning exactly the afk users leaves a reaction set with no afk user in
its tallies, so the recursive call of `IdleState.next` prunes at most once. -/
theorem afksOf_prune_nil (bot : User) (reacts : List Reaction) :
    afksOf bot (pruneReacts (afksOf bot reacts) reacts) = [] := by
  rw [List.eq_nil_iff_forall_not_mem]
  intro u hu
  rcases mem_afksOf.mp hu with ⟨hmem, hafk⟩
  have hA : u ∉ afksOf bot reacts := by
    rcases hmem with h | h
    · exact (mem_hostsOf_prune.mp h).2
    · exact (mem_playersOf_prune.mp h).2
  have hin : u ∈ hostsOf bot reacts ∨ u ∈ playersOf bot reacts := by
    rcases hmem with h | h
    · exact Or.inl (mem_hostsOf_prune.mp h).1
    · exact Or.inr (mem_playersOf_prune.mp h).1
  exact hA (mem_afksOf.mpr ⟨hin, hafk⟩)

/-- Indexing a nonempty list modulo its length yields a member. -/
theorem getD_mod_mem {l : List User} (h : l ≠ []) (i : Nat) (d : User) :
    l.getD (i % l.length) d ∈ l := by
  have hlen : 0 < l.length := List.length_pos.mpr h
  rw [List.getD_eq_getElem l d (Nat.mod_lt _ hlen)]
  exact List.getElem_mem _

/-- A nodup list does not contain the element just erased from it. -/
theorem not_mem_erase_self {l : List User} (h : l.Nodup) (a : User) : a ∉ l.erase a := by
  rw [← List.count_eq_zero]
  have h1 := List.count_erase_self a l
  have h2 : l.count a ≤ 1 := List.nodup_iff_count_le_one.mp h a
  omega

/-- Every sampled element comes from the pool. -/
theorem sampleL_subset {seed : List Nat} {k : Nat} {xs : List User} :
    ∀ u ∈ sampleL seed k xs, u ∈ xs := by
  induction k generalizing seed xs with
  | zero => intro u hu; simp [sampleL] at hu
  | succ k ih =>
    intro u hu
    cases xs with
    | nil => simp [sampleL] at hu
    | cons x tl =>
      simp only [sampleL] at hu
      rcases List.mem_cons.mp hu with rfl | hmem
      · exact getD_mod_mem (by simp) _ _
      · exact List.mem_of_mem_erase (ih _ hmem)

/-- Sampling `k ≤ |pool|` elements yields exactly `k` elements
(`random.sample` never shrinks the request when the pool suffices). -/
theorem sampleL_length {seed : List Nat} {k : Nat} {xs : List User} (h : k ≤ xs.length) :
    (sampleL seed k xs).length = k := by
  induction k generalizing seed xs with
  | zero => simp [sampleL]
  | succ k ih =>
    cases xs with
    | nil => simp at h
    | cons x tl =>
      have hm : (x :: tl).getD (seed.headD 0 % (x :: tl).length) default ∈ x :: tl :=
        getD_mod_mem (by simp) _ _
      have hlen := List.length_erase_of_mem hm
      simp only [sampleL]
      rw [List.length_cons, ih (by omega)]

/-- Sampling from a nodup pool yields distinct elements. -/
theorem sampleL_nodup {seed : List Nat} {k : Nat} {xs : List User} (h : xs.Nodup) :
    (sampleL seed k xs).Nodup := by
  induction k generalizing seed xs with
  | zero => simp [sampleL]
  | succ k ih =>
    cases xs with
    | nil => simp [sampleL]
    | cons x tl =>
      simp only [sampleL, List.nodup_cons]
      set u := (x :: tl).getD (seed.headD 0 % (x :: tl).length) default with hu
      refine ⟨fun hmem => ?_, ih (List.Nodup.sublist (List.erase_sublist _ _) h)⟩
      exact not_mem_erase_self h u (sampleL_subset _ hmem)

/-- The tallied host list is duplicate-free (it embeds a Python `frozenset`). -/
theorem hostsOf_nodup (bot : User) (reacts : List Reaction) : (hostsOf bot reacts).Nodup :=
  List.Nodup.filter _ (List.nodup_dedup _)

/-- The tallied player list is duplicate-free. -/
theorem playersOf_nodup (bot : User) (reacts : List Reaction) : (playersOf bot reacts).Nodup :=
  List.Nodup.filter _ (List.nodup_dedup _)

/-- The sample drawn at match start has full requested size: twice the team
size never exceeds the player count. -/
theorem teamSizeOf_two_le (players : List User) : teamSizeOf players * 2 ≤ players.length := by
  have h1 : teamSizeOf players * 2 ≤ min MAX_PLAYERS players.length := by
    simpa [teamSizeOf, Nat.mul_comm] using Nat.mul_div_le (min MAX_PLAYERS players.length) 2
  exact h1.trans (Nat.min_le_right _ _)

/-- Inversion of the match-start step: the produced host comes from the host
tally and the rosters are equal-sized, duplicate-free slices of the player
tally, each of the team size. -/
theorem pugStart_inv {n : Option String} {hosts players : List User} {seed : List Nat}
    {n2 : Option String} {h : User} {red blu : List User}
    (hne : hosts ≠ []) (hnd : players.Nodup)
    (hres : pugStart n hosts players seed = PugSt.running n2 h red blu) :
    h ∈ hosts ∧ red.length = teamSizeOf players ∧ blu.length = teamSizeOf players ∧
      (red ++ blu).Nodup ∧ ∀ u ∈ red ++ blu, u ∈ players := by
  have hlen : (sampleL seed.tail (teamSizeOf players * 2) players).length
      = teamSizeOf players * 2 := sampleL_length (teamSizeOf_two_le players)
  simp only [pugStart, PugSt.running.injEq] at hres
  obtain ⟨-, hh, hr, hb⟩ := hres
  subst hh hr hb
  refine ⟨getD_mod_mem hne _ _, ?_, ?_, ?_, ?_⟩
  · rw [List.length_take, hlen]; omega
  · rw [List.length_drop, hlen]; omega
  · rw [List.take_append_drop]; exact sampleL_nodup hnd
  · rw [List.take_append_drop]; exact fun u hu => sampleL_subset u hu

/-- Inversion of `IdleState.next`: whenever a running state is produced, there
is a (possibly afk-pruned) reaction set with no afk users left from whose
tallies the host and the rosters were drawn. -/
theorem pugIdleNext_running_inv (bot : User) (mp : Nat) (n : Option String)
    (reacts : List Reaction) (seed : List Nat) {n2 : Option String} {h : User}
    {red blu : List User}
    (hres : pugIdleNext bot mp n reacts seed = PugSt.running n2 h red blu) :
    ∃ rs : List Reaction, afksOf bot rs = [] ∧ h ∈ hostsOf bot rs ∧
      red.length = teamSizeOf (playersOf bot rs) ∧
      blu.length = teamSizeOf (playersOf bot rs) ∧
      (red ++ blu).Nodup ∧ ∀ u ∈ red ++ blu, u ∈ playersOf bot rs := by
  by_cases hq : (hostsOf bot reacts).length < 1 ∨ (playersOf bot reacts).length < mp
  · rw [pugIdleNext_stay _ _ _ _ _ hq] at hres
    simp at hres
  · by_cases ha : afksOf bot reacts = []
    · rw [pugIdleNext_go _ _ _ _ _ hq ha] at hres
      have hne : hostsOf bot reacts ≠ [] := by
        intro hnil
        exact hq (Or.inl (by simp [hnil]))
      obtain ⟨h1, h2, h3, h4, h5⟩ := pugStart_inv hne (playersOf_nodup bot reacts) hres
      exact ⟨reacts, ha, h1, h2, h3, h4, h5⟩
    · rw [pugIdleNext_prune _ _ _ _ _ hq ha] at hres
      have ha2 : afksOf bot (pruneReacts (afksOf bot reacts) reacts) = [] :=
        afksOf_prune_nil bot reacts
      by_cases hq2 : (hostsOf bot (pruneReacts (afksOf bot reacts) reacts)).length < 1 ∨
          (playersOf bot (pruneReacts (afksOf bot reacts) reacts)).length < mp
      · rw [pugIdleNext_stay _ _ _ _ _ hq2] at hres
        simp at hres
      · rw [pugIdleNext_go _ _ _ _ _ hq2 ha2] at hres
        have hne : hostsOf bot (pruneReacts (afksOf bot reacts) reacts) ≠ [] := by
          intro hnil
          exact hq2 (Or.inl (by simp [hnil]))
        obtain ⟨h1, h2, h3, h4, h5⟩ :=
          pugStart_inv hne (playersOf_nodup bot (pruneReacts (afksOf bot reacts) reacts)) hres
        exact ⟨pruneReacts (afksOf bot reacts) reacts, ha2, h1, h2, h3, h4, h5⟩

end Pug

/-- C9: when IdleState's quorum is met but some reacting user is a member whose
presence status is not online, the update removes those users' reactions,
emits the afk notice, and recomputes the transition over the remaining users;
consequently, whenever the update produces a running state, neither the host
nor any rostered player is an afk member. -/
theorem C9_afk_pruning (bot : Pug.User) (mp : Nat) (n : Option String)
    (reacts : List Pug.Reaction) (seed : List Nat) :
    (1 ≤ (Pug.hostsOf bot reacts).length → mp ≤ (Pug.playersOf bot reacts).length →
      Pug.afksOf bot reacts ≠ [] →
      Pug.pugIdleNext bot mp n reacts seed =
        Pug.pugIdleNext bot mp (some (Pug.afkNotice (Pug.afksOf bot reacts)))
          (Pug.pruneReacts (Pug.afksOf bot reacts) reacts) seed) ∧
    (∀ (n2 : Option String) (h : Pug.User) (red blu : List Pug.User),
      Pug.pugIdleNext bot mp n reacts seed = Pug.PugSt.running n2 h red blu →
      Pug.isAfk h = false ∧ ∀ u ∈ red ++ blu, Pug.isAfk u = false) := by
  constructor
  · intro h1 h2 h3
    exact Pug.pugIdleNext_prune bot mp n reacts seed (by omega) h3
  · intro n2 h red blu hres
    obtain ⟨rs, ha, hh, -, -, -, hmem⟩ := Pug.pugIdleNext_running_inv bot mp n reacts seed hres
    exact ⟨Pug.noAfk_mem ha (Or.inl hh),
      fun u hu => Pug.noAfk_mem ha (Or.inr (hmem u hu))⟩

/-- Witness for C9 at a concrete input: one host, one online player and one
idle guild member have reacted; the update equals the recomputation on the
reaction set with the afk member's reactions removed and the notice emitted. -/
theorem C9_afk_pruning_witness :
    Pug.pugIdleNext (⟨0, ("bot"), false, Pug.Status.online, false⟩ : Pug.User) 1 none
        [⟨Pug.HOST_EMOJI, [⟨2, ("h"), false, Pug.Status.online, false⟩]⟩,
         ⟨("x"), [⟨3, ("p"), false, Pug.Status.online, false⟩,
                  ⟨1, ("afk"), true, Pug.Status.idle, false⟩]⟩] [0] =
      Pug.pugIdleNext (⟨0, ("bot"), false, Pug.Status.online, false⟩ : Pug.User) 1
        (some (Pug.afkNotice (Pug.afksOf (⟨0, ("bot"), false, Pug.Status.online, false⟩ : Pug.User)
          [⟨Pug.HOST_EMOJI, [⟨2, ("h"), false, Pug.Status.online, false⟩]⟩,
           ⟨("x"), [⟨3, ("p"), false, Pug.Status.online, false⟩,
                    ⟨1, ("afk"), true, Pug.Status.idle, false⟩]⟩])))
        (Pug.pruneReacts (Pug.afksOf (⟨0, ("bot"), false, Pug.Status.online, false⟩ : Pug.User)
          [⟨Pug.HOST_EMOJI, [⟨2, ("h"), false, Pug.Status.online, false⟩]⟩,
           ⟨("x"), [⟨3, ("p"), false, Pug.Status.online, false⟩,
                    ⟨1, ("afk"), true, Pug.Status.idle, false⟩]⟩])
          [⟨Pug.HOST_EMOJI, [⟨2, ("h"), false, Pug.Status.online, false⟩]⟩,
           ⟨("x"), [⟨3, ("p"), false, Pug.Status.online, false⟩,
                    ⟨1, ("afk"), true, Pug.Status.idle, false⟩]⟩]) [0] :=
  (C9_afk_pruning _ 1 none _ [0]).1 (by decide) (by decide) (by decide)

/-- C10: whenever a match starts from IdleState (quorum met, nobody afk), the
two rosters both have size `min(MAX_PLAYERS, player count) / 2`, are
duplicate-free, and only contain tallied players (so excess players beyond
`MAX_PLAYERS`, and one leftover player when the eligible count is odd, are on
neither roster); moreover every running state the update can produce has
equal-sized rosters. -/
theorem C10_roster_sizes (bot : Pug.User) (mp : Nat) (n : Option String)
    (reacts : List Pug.Reaction) (seed : List Nat) :
    (1 ≤ (Pug.hostsOf bot reacts).length → mp ≤ (Pug.playersOf bot reacts).length →
      Pug.afksOf bot reacts = [] →
      Pug.rosterSizes (Pug.pugIdleNext bot mp n reacts seed) =
        some (min Pug.MAX_PLAYERS (Pug.playersOf bot reacts).length / 2,
              min Pug.MAX_PLAYERS (Pug.playersOf bot reacts).length / 2) ∧
      (Pug.rosterUsers (Pug.pugIdleNext bot mp n reacts seed)).Nodup ∧
      ∀ u ∈ Pug.rosterUsers (Pug.pugIdleNext bot mp n reacts seed),
        u ∈ Pug.playersOf bot reacts) ∧
    (∀ (n2 : Option String) (h : Pug.User) (red blu : List Pug.User),
      Pug.pugIdleNext bot mp n reacts seed = Pug.PugSt.running n2 h red blu →
      red.length = blu.length) := by
  constructor
  · intro h1 h2 h3
    rw [Pug.pugIdleNext_go bot mp n reacts seed (by omega) h3]
    refine ⟨?_, ?_, ?_⟩
    · have hlen2 : (Pug.sampleL seed.tail
          (min Pug.MAX_PLAYERS (Pug.playersOf bot reacts).length / 2 * 2)
          (Pug.playersOf bot reacts)).length
          = min Pug.MAX_PLAYERS (Pug.playersOf bot reacts).length / 2 * 2 :=
        Pug.sampleL_length (Pug.teamSizeOf_two_le _)
      simp only [Pug.pugStart, Pug.rosterSizes, Pug.teamSizeOf, List.length_take,
        List.length_drop, hlen2, Option.some.injEq, Prod.mk.injEq]
      omega
    · simp only [Pug.pugStart, Pug.rosterUsers, List.take_append_drop]
      exact Pug.sampleL_nodup (Pug.playersOf_nodup _ _)
    · simp only [Pug.pugStart, Pug.rosterUsers, List.take_append_drop]
      exact fun u hu => Pug.sampleL_subset u hu
  · intro n2 h red blu hres
    obtain ⟨rs, -, -, h2, h3, -, -⟩ := Pug.pugIdleNext_running_inv bot mp n reacts seed hres
    omega

/-- Witness for C10 at a concrete input: one host and two players, so each
roster gets `min(12, 2) / 2 = 1` player. -/
theorem C10_roster_sizes_witness :
    Pug.rosterSizes (Pug.pugIdleNext (⟨0, ("bot"), false, Pug.Status.online, false⟩ : Pug.User)
        2 none
        [⟨Pug.HOST_EMOJI, [⟨1, ("h"), false, Pug.Status.online, false⟩]⟩,
         ⟨("x"), [⟨2, ("p1"), false, Pug.Status.online, false⟩,
                  ⟨3, ("p2"), false, Pug.Status.online, false⟩]⟩] [0]) = some (1, 1) := by
  have h := (C10_roster_sizes (⟨0, ("bot"), false, Pug.Status.online, false⟩ : Pug.User)
    2 none
    [⟨Pug.HOST_EMOJI, [⟨1, ("h"), false, Pug.Status.online, false⟩]⟩,
     ⟨("x"), [⟨2, ("p1"), false, Pug.Status.online, false⟩,
              ⟨3, ("p2"), false, Pug.Status.online, false⟩]⟩] [0]).1
    (by decide) (by decide) (by decide)
  rw [h.1]
  decide

/-- C3 (amended): transitions are deterministic once the consumed random
stream is fixed as an extra input; in particular, while the quorum is unmet
the Idle update does not depend on the random stream at all. -/
theorem C3_deterministic_given_rng (bot : Pug.User) (mp : Nat) (n : Option String)
    (reacts : List Pug.Reaction) (s1 s2 : List Nat)
    (h : (Pug.hostsOf bot reacts).length < 1 ∨ (Pug.playersOf bot reacts).length < mp) :
    Pug.pugIdleNext bot mp n reacts s1 = Pug.pugIdleNext bot mp n reacts s2 := by
  rw [Pug.pugIdleNext_stay _ _ _ _ _ h, Pug.pugIdleNext_stay _ _ _ _ _ h]

/-- Witness for C3 (amended) at a concrete input: with no reactions at all the
Idle update is the same for two different random streams. -/
theorem C3_deterministic_given_rng_witness :
    Pug.pugIdleNext (⟨0, ("bot"), false, Pug.Status.online, false⟩ : Pug.User) 8 none [] [0] =
      Pug.pugIdleNext (⟨0, ("bot"), false, Pug.Status.online, false⟩ : Pug.User) 8 none [] [99] :=
  C3_deterministic_given_rng _ 8 none [] [0] [99] (by decide)

/-- C3 counterexample: the claim that two evaluations of the same state's
update on identical (state, reaction set, admin set) inputs produce identical
successor states is false: with two host candidates and a met quorum,
`IdleState.next` consults `random.choice`, and two draws of the hidden random
state pick different hosts. -/
theorem C3_counterexample_rng :
    Pug.pugIdleNext (⟨0, ("bot"), false, Pug.Status.online, false⟩ : Pug.User) 2 none
        [⟨Pug.HOST_EMOJI, [⟨1, ("h1"), false, Pug.Status.online, false⟩,
                           ⟨2, ("h2"), false, Pug.Status.online, false⟩]⟩,
         ⟨("x"), [⟨3, ("p1"), false, Pug.Status.online, false⟩,
                  ⟨4, ("p2"), false, Pug.Status.online, false⟩]⟩] [0] ≠
      Pug.pugIdleNext (⟨0, ("bot"), false, Pug.Status.online, false⟩ : Pug.User) 2 none
        [⟨Pug.HOST_EMOJI, [⟨1, ("h1"), false, Pug.Status.online, false⟩,
                           ⟨2, ("h2"), false, Pug.Status.online, false⟩]⟩,
         ⟨("x"), [⟨3, ("p1"), false, Pug.Status.online, false⟩,
                  ⟨4, ("p2"), false, Pug.Status.online, false⟩]⟩] [1] := by
  have e1 := Pug.pugIdleNext_go (⟨0, ("bot"), false, Pug.Status.online, false⟩ : Pug.User) 2 none
    [⟨Pug.HOST_EMOJI, [⟨1, ("h1"), false, Pug.Status.online, false⟩,
                       ⟨2, ("h2"), false, Pug.Status.online, false⟩]⟩,
     ⟨("x"), [⟨3, ("p1"), false, Pug.Status.online, false⟩,
              ⟨4, ("p2"), false, Pug.Status.online, false⟩]⟩] [0] (by decide) (by decide)
  have e2 := Pug.pugIdleNext_go (⟨0, ("bot"), false, Pug.Status.online, false⟩ : Pug.User) 2 none
    [⟨Pug.HOST_EMOJI, [⟨1, ("h1"), false, Pug.Status.online, false⟩,
                       ⟨2, ("h2"), false, Pug.Status.online, false⟩]⟩,
     ⟨("x"), [⟨3, ("p1"), false, Pug.Status.online, false⟩,
              ⟨4, ("p2"), false, Pug.Status.online, false⟩]⟩] [1] (by decide) (by decide)
  rw [e1, e2]
  decide

/-- C4 (code bug): `RunningState.next` is not total on normal reaction-set
inputs.  When the tracked message carries no done-emoji reaction (empty
reaction set, or only other reactions), `utils.get` returns `None` and
reading `.count` raises `AttributeError` (embedded `Except.error`); and when
the done reaction is present without a completion signal the function returns
`None` instead of a next state (embedded `Except.ok none`). -/
theorem C4_running_update_unsafe :
    Pug.pugRunningNext none (⟨9, ("host"), true, Pug.Status.online, false⟩ : Pug.User) [] []
        [] = Except.error () ∧
    Pug.pugRunningNext none (⟨9, ("host"), true, Pug.Status.online, false⟩ : Pug.User) [] []
        [⟨("x"), [⟨3, ("u"), false, Pug.Status.online, false⟩]⟩] = Except.error () ∧
    Pug.pugRunningNext none (⟨9, ("host"), true, Pug.Status.online, false⟩ : Pug.User) [] []
        [⟨Pug.DONE_EMOJI, [⟨0, ("bot"), false, Pug.Status.online, false⟩]⟩] =
      Except.ok none := by
  decide

/-- C5 (amended): for every RunningState in which the done reaction is present
but carries no completion signal (at most two reactors and the owner not among
them), the update returns no successor state at all (Python `None`) rather
than re-emitting the running state; the driver observes a failure, not a
no-op successor. -/
theorem C5_no_completion_returns_none (n : Option String) (host : Pug.User)
    (red blu : List Pug.User) (reacts : List Pug.Reaction) (dr : Pug.Reaction)
    (hfind : reacts.find? (fun r => decide (r.emoji = Pug.DONE_EMOJI)) = some dr)
    (hcount : ¬ (2 < dr.users.length ∨ dr.users.any Pug.User.isOwner = true)) :
    Pug.pugRunningNext n host red blu reacts = Except.ok none := by
  simp only [Pug.pugRunningNext, hfind]
  rw [if_neg hcount]

/-- Witness for C5 (amended) at a concrete input: the done reaction holds only
the bot's own reaction. -/
theorem C5_no_completion_returns_none_witness :
    Pug.pugRunningNext none (⟨9, ("host"), true, Pug.Status.online, false⟩ : Pug.User) [] []
        [⟨Pug.DONE_EMOJI, [⟨0, ("bot"), false, Pug.Status.online, false⟩]⟩] =
      Except.ok none :=
  C5_no_completion_returns_none none (⟨9, ("host"), true, Pug.Status.online, false⟩ : Pug.User)
    [] [] [⟨Pug.DONE_EMOJI, [⟨0, ("bot"), false, Pug.Status.online, false⟩]⟩]
    (⟨Pug.DONE_EMOJI, [⟨0, ("bot"), false, Pug.Status.online, false⟩]⟩ : Pug.Reaction)
    (by decide) (by decide)

/-- C5 counterexample: with the done reaction present but no completion
signal, the update evaluates to `Except.ok none` — no successor state — which
is not the re-emitted running state the claim promises. -/
theorem C5_counterexample_no_reemit :
    Pug.pugRunningNext (some ("notice")) (⟨9, ("host"), true, Pug.Status.online, false⟩ : Pug.User)
        [⟨4, ("a"), true, Pug.Status.online, false⟩] [⟨5, ("b"), true, Pug.Status.online, false⟩]
        [⟨Pug.DONE_EMOJI, [⟨0, ("bot"), false, Pug.Status.online, false⟩]⟩] =
      Except.ok none ∧
    ((Except.ok none : Except Unit (Option Pug.PugSt)) ≠
      (Except.ok (some (Pug.PugSt.running (some ("notice"))
        (⟨9, ("host"), true, Pug.Status.online, false⟩ : Pug.User)
        [⟨4, ("a"), true, Pug.Status.online, false⟩]
        [⟨5, ("b"), true, Pug.Status.online, false⟩])) : Except Unit (Option Pug.PugSt))) := by
  decide

/-- C6 (amended): given the done reaction is present, the completion
transition of `RunningState.next` fires exactly when the done reaction's user
count (counting every reactor: the bot's own reaction and non-roster users
included) exceeds 2, or the bot owner is among the done reactors; roster
membership plays no role and no other emoji is consulted. -/
theorem C6_completion_count_iff (n : Option String) (host : Pug.User)
    (red blu : List Pug.User) (reacts : List Pug.Reaction) (dr : Pug.Reaction)
    (hfind : reacts.find? (fun r => decide (r.emoji = Pug.DONE_EMOJI)) = some dr) :
    Pug.pugRunningNext n host red blu reacts = Except.ok (some (Pug.PugSt.idle n [] [])) ↔
      (2 < dr.users.length ∨ dr.users.any Pug.User.isOwner = true) := by
  simp only [Pug.pugRunningNext, hfind]
  split_ifs with hc
  · exact iff_of_true rfl hc
  · refine iff_of_false (fun he => ?_) hc
    simp at he

/-- Witness for C6 (amended) at a concrete input: three reactors on the done
reaction make the completion fire. -/
theorem C6_completion_count_iff_witness :
    Pug.pugRunningNext none (⟨9, ("host"), true, Pug.Status.online, false⟩ : Pug.User) [] []
        [⟨Pug.DONE_EMOJI, [⟨1, ("a"), false, Pug.Status.online, false⟩,
                           ⟨2, ("b"), false, Pug.Status.online, false⟩,
                           ⟨3, ("c"), false, Pug.Status.online, false⟩]⟩] =
      Except.ok (some (Pug.PugSt.idle none [] [])) :=
  (C6_completion_count_iff none (⟨9, ("host"), true, Pug.Status.online, false⟩ : Pug.User)
    [] []
    [⟨Pug.DONE_EMOJI, [⟨1, ("a"), false, Pug.Status.online, false⟩,
                       ⟨2, ("b"), false, Pug.Status.online, false⟩,
                       ⟨3, ("c"), false, Pug.Status.online, false⟩]⟩]
    (⟨Pug.DONE_EMOJI, [⟨1, ("a"), false, Pug.Status.online, false⟩,
                       ⟨2, ("b"), false, Pug.Status.online, false⟩,
                       ⟨3, ("c"), false, Pug.Status.online, false⟩]⟩ : Pug.Reaction)
    (by decide)).mpr (by decide)

/-- C6 counterexample: the completion transition fires on a reaction set in
which no roster member holds a done reaction and neither the owner nor anyone
else privileged reacted — three unrelated non-roster users suffice — refuting
the claimed "exactly when a quorum of done reactions from roster members or an
admin/owner override is present". -/
theorem C6_counterexample_nonroster :
    Pug.pugRunningNext none (⟨9, ("host"), true, Pug.Status.online, false⟩ : Pug.User)
        [⟨7, ("r1"), true, Pug.Status.online, false⟩]
        [⟨8, ("r2"), true, Pug.Status.online, false⟩]
        [⟨Pug.DONE_EMOJI, [⟨1, ("a"), false, Pug.Status.online, false⟩,
                           ⟨2, ("b"), false, Pug.Status.online, false⟩,
                           ⟨3, ("c"), false, Pug.Status.online, false⟩]⟩] =
      Except.ok (some (Pug.PugSt.idle none [] [])) ∧
    (⟨1, ("a"), false, Pug.Status.online, false⟩ : Pug.User) ∉
      ([⟨7, ("r1"), true, Pug.Status.online, false⟩] ++
       [⟨8, ("r2"), true, Pug.Status.online, false⟩] : List Pug.User) ∧
    (⟨2, ("b"), false, Pug.Status.online, false⟩ : Pug.User) ∉
      ([⟨7, ("r1"), true, Pug.Status.online, false⟩] ++
       [⟨8, ("r2"), true, Pug.Status.online, false⟩] : List Pug.User) ∧
    (⟨3, ("c"), false, Pug.Status.online, false⟩ : Pug.User) ∉
      ([⟨7, ("r1"), true, Pug.Status.online, false⟩] ++
       [⟨8, ("r2"), true, Pug.Status.online, false⟩] : List Pug.User) ∧
    (⟨1, ("a"), false, Pug.Status.online, false⟩ : Pug.User).isOwner = false ∧
    (⟨2, ("b"), false, Pug.Status.online, false⟩ : Pug.User).isOwner = false ∧
    (⟨3, ("c"), false, Pug.Status.online, false⟩ : Pug.User).isOwner = false := by
  decide

namespace Rich

/-- The lowest-id selection picks a member of a nonempty candidate set. -/
theorem lowest_mem {s : Finset Nat} (h : s.Nonempty) : lowest s ∈ s := by
  obtain ⟨a, ha⟩ := Finset.min_of_nonempty h
  have he : lowest s = a := by
    rw [lowest, ha]
    rfl
  rw [he]
  exact Finset.mem_of_min ha

/-- On a two-element candidate set, the lowest-id pair consists of the two
distinct members. -/
theorem pairLow_spec {s : Finset Nat} (h : s.card = 2) :
    (pairLow s).1 ∈ s ∧ (pairLow s).2 ∈ s ∧ (pairLow s).1 ≠ (pairLow s).2 := by
  have hne : s.Nonempty := Finset.card_pos.mp (by omega)
  have h1 : lowest s ∈ s := lowest_mem hne
  have hcard : (s.erase (lowest s)).card = 1 := by
    rw [Finset.card_erase_of_mem h1, h]
  have hne2 : (s.erase (lowest s)).Nonempty := Finset.card_pos.mp (by omega)
  have h2 := lowest_mem hne2
  exact ⟨h1, Finset.mem_of_mem_erase h2, (Finset.mem_erase.mp h2).1.symm⟩

end Rich

/-- C1 (amended): provided no admin holds the wait override without also
holding the skip override, every reaction set with exactly 1 host candidate,
exactly 2 captain candidates and at least the minimum player quorum makes
IdleState's update advance to PickState, seeded with the host candidate, the
two (distinct) captain candidates and the player pool with captains removed;
and every reaction set with insufficient player quorum leaves the update in
IdleState. -/
theorem C1_exact_pool_advances (botId : Nat) (adminIds : Finset Nat) (mp : Nat)
    (reacts : Finset Rich.React) :
    (¬ Rich.adminStall adminIds reacts →
      (Rich.hostCandidates botId reacts).card = Rich.MIN_HOSTS →
      (Rich.captainCandidates botId reacts).card = Rich.MIN_CAPTS →
      mp ≤ (Rich.playerCandidates botId adminIds reacts).card →
      Rich.idleUpdate botId adminIds mp reacts =
        Rich.RState.pick (Rich.lowest (Rich.hostCandidates botId reacts))
          (Rich.pairLow (Rich.captainCandidates botId reacts))
          (Rich.playerCandidates botId adminIds reacts \
            Rich.captainCandidates botId reacts) ∧
      Rich.lowest (Rich.hostCandidates botId reacts) ∈ Rich.hostCandidates botId reacts ∧
      (Rich.pairLow (Rich.captainCandidates botId reacts)).1 ∈
        Rich.captainCandidates botId reacts ∧
      (Rich.pairLow (Rich.captainCandidates botId reacts)).2 ∈
        Rich.captainCandidates botId reacts ∧
      (Rich.pairLow (Rich.captainCandidates botId reacts)).1 ≠
        (Rich.pairLow (Rich.captainCandidates botId reacts)).2) ∧
    ((Rich.playerCandidates botId adminIds reacts).card < mp →
      Rich.idleUpdate botId adminIds mp reacts = Rich.RState.idle) := by
  constructor
  · intro hstall hh hc hp
    have hne : (Rich.hostCandidates botId reacts).Nonempty := by
      rw [← Finset.card_pos, hh]
      decide
    obtain ⟨h1, h2, h3⟩ := Rich.pairLow_spec hc
    refine ⟨?_, Rich.lowest_mem hne, h1, h2, h3⟩
    rw [Rich.idleUpdate, if_neg hstall, if_pos ⟨hh, hc, hp⟩]
  · intro hlt
    rw [Rich.idleUpdate]
    split_ifs with h1 h2 h3 h4
    · rfl
    · exact absurd h2.2.2 (by omega)
    · exact absurd h3.1.1 (by omega)
    · exact absurd h4.1 (by omega)
    · rfl

/-- Witness for C1 (amended) at concrete inputs: one host, two captains who
also count as the two players (quorum 2) advance to PickState; the same
reaction set with quorum 8 stays Idle. -/
theorem C1_exact_pool_advances_witness :
    Rich.idleUpdate 0 ∅ 2
        ({⟨1, Rich.HOST_EMOJI⟩, ⟨2, Rich.CAPT_EMOJI⟩, ⟨3, Rich.CAPT_EMOJI⟩} :
          Finset Rich.React) =
      Rich.RState.pick
        (Rich.lowest (Rich.hostCandidates 0
          ({⟨1, Rich.HOST_EMOJI⟩, ⟨2, Rich.CAPT_EMOJI⟩, ⟨3, Rich.CAPT_EMOJI⟩} :
            Finset Rich.React)))
        (Rich.pairLow (Rich.captainCandidates 0
          ({⟨1, Rich.HOST_EMOJI⟩, ⟨2, Rich.CAPT_EMOJI⟩, ⟨3, Rich.CAPT_EMOJI⟩} :
            Finset Rich.React)))
        (Rich.playerCandidates 0 ∅
          ({⟨1, Rich.HOST_EMOJI⟩, ⟨2, Rich.CAPT_EMOJI⟩, ⟨3, Rich.CAPT_EMOJI⟩} :
            Finset Rich.React) \
         Rich.captainCandidates 0
          ({⟨1, Rich.HOST_EMOJI⟩, ⟨2, Rich.CAPT_EMOJI⟩, ⟨3, Rich.CAPT_EMOJI⟩} :
            Finset Rich.React)) ∧
    Rich.idleUpdate 0 ∅ 8
        ({⟨1, Rich.HOST_EMOJI⟩, ⟨2, Rich.CAPT_EMOJI⟩, ⟨3, Rich.CAPT_EMOJI⟩} :
          Finset Rich.React) = Rich.RState.idle :=
  by
  constructor
  · refine ((C1_exact_pool_advances 0 ∅ 2 _).1 ?_ ?_ ?_ ?_).1 <;> decide
  · refine (C1_exact_pool_advances 0 ∅ 8 _).2 ?_
    decide

set_option maxHeartbeats 1600000 in
/-- C1 counterexample: with exactly 1 host candidate, 2 captain candidates and
the player quorum met, an admin additionally holding the wait override (and
not the skip override) keeps the update in IdleState, so the claim as stated
(advancing to PickState for every such reaction set) is false. -/
theorem C1_counterexample_admin_wait :
    (Rich.hostCandidates 0
      ({⟨100, Rich.WAIT_EMOJI⟩, ⟨1, Rich.HOST_EMOJI⟩, ⟨2, Rich.CAPT_EMOJI⟩,
        ⟨3, Rich.CAPT_EMOJI⟩, ⟨4, 9⟩, ⟨5, 9⟩} : Finset Rich.React)).card = 1 ∧
    (Rich.captainCandidates 0
      ({⟨100, Rich.WAIT_EMOJI⟩, ⟨1, Rich.HOST_EMOJI⟩, ⟨2, Rich.CAPT_EMOJI⟩,
        ⟨3, Rich.CAPT_EMOJI⟩, ⟨4, 9⟩, ⟨5, 9⟩} : Finset Rich.React)).card = 2 ∧
    4 ≤ (Rich.playerCandidates 0 ({100} : Finset Nat)
      ({⟨100, Rich.WAIT_EMOJI⟩, ⟨1, Rich.HOST_EMOJI⟩, ⟨2, Rich.CAPT_EMOJI⟩,
        ⟨3, Rich.CAPT_EMOJI⟩, ⟨4, 9⟩, ⟨5, 9⟩} : Finset Rich.React)).card ∧
    Rich.idleUpdate 0 ({100} : Finset Nat) 4
      ({⟨100, Rich.WAIT_EMOJI⟩, ⟨1, Rich.HOST_EMOJI⟩, ⟨2, Rich.CAPT_EMOJI⟩,
        ⟨3, Rich.CAPT_EMOJI⟩, ⟨4, 9⟩, ⟨5, 9⟩} : Finset Rich.React) = Rich.RState.idle := by
  decide

/-- C2: for every RunningState in which a completion signal is observed, the
update transitions to StoppedState carrying the same host and the same two
rosters, and StoppedState emits no further transitions for any reaction
set. -/
theorem C2_running_completion_stops (adminIds : Finset Nat) (ownerId mp hostId : Nat)
    (red blu : List Nat) (reacts : Finset Rich.React)
    (hs : Rich.completionSignal adminIds ownerId mp red blu reacts) :
    Rich.runningUpdate adminIds ownerId mp hostId red blu reacts =
      Rich.RState.stopped hostId red blu ∧
    ∀ reacts2 : Finset Rich.React, Rich.stoppedNext hostId red blu reacts2 = none := by
  refine ⟨?_, fun _ => rfl⟩
  rw [Rich.runningUpdate, if_pos hs]

/-- Witness for C2 at a concrete input: the admin with id 5 holds the skip
override, signalling completion. -/
theorem C2_running_completion_stops_witness :
    Rich.runningUpdate ({5} : Finset Nat) 9 1 7 [1, 2] [3, 4]
        ({⟨5, Rich.SKIP_EMOJI⟩} : Finset Rich.React) = Rich.RState.stopped 7 [1, 2] [3, 4] :=
  by
  refine (C2_running_completion_stops _ _ _ _ _ _ _ ?_).1
  decide

/-- C7: for every reaction set, the bot's own reactions never appear in the
derived host, captain, or player candidate sets. -/
theorem C7_bot_excluded (botId : Nat) (adminIds : Finset Nat) (reacts : Finset Rich.React) :
    botId ∉ Rich.hostCandidates botId reacts ∧
    botId ∉ Rich.captainCandidates botId reacts ∧
    botId ∉ Rich.playerCandidates botId adminIds reacts :=
  ⟨Finset.not_mem_erase _ _, Finset.not_mem_erase _ _, Finset.not_mem_erase _ _⟩

/-- C8: a (non-bot) user whose only reactions are the host emoji is excluded
from the derived player set, while a user holding a captain reaction is
included in the derived player set. -/
theorem C8_host_only_excluded_captain_included (botId : Nat) (adminIds : Finset Nat)
    (reacts : Finset Rich.React) (u : Nat) (hu : u ≠ botId) :
    ((∀ r ∈ reacts, r.uid = u → r.emoji = Rich.HOST_EMOJI) →
      u ∉ Rich.playerCandidates botId adminIds reacts) ∧
    ((⟨u, Rich.CAPT_EMOJI⟩ : Rich.React) ∈ reacts →
      u ∈ Rich.playerCandidates botId adminIds reacts) := by
  constructor
  · intro honly hmem
    rw [Rich.playerCandidates, Finset.mem_erase] at hmem
    obtain ⟨-, hmem⟩ := hmem
    rw [Finset.mem_image] at hmem
    obtain ⟨r, hr, rfl⟩ := hmem
    rw [Finset.mem_filter] at hr
    exact hr.2.1 (honly r hr.1 rfl)
  · intro hmem
    rw [Rich.playerCandidates, Finset.mem_erase]
    refine ⟨hu, Finset.mem_image.mpr ⟨⟨u, Rich.CAPT_EMOJI⟩, ?_, rfl⟩⟩
    rw [Finset.mem_filter]
    refine ⟨hmem, ?_, ?_⟩
    · show Rich.CAPT_EMOJI ≠ Rich.HOST_EMOJI
      decide
    · rintro ⟨-, hov⟩
      have hov2 : Rich.CAPT_EMOJI ∈ Rich.OVERRIDE_EMOJIS := hov
      exact absurd hov2 (by decide)

/-- Witness for C8 at a concrete input: user 6 reacted only with the host
emoji and is not a player; user 5 reacted with the captain emoji and is a
player. -/
theorem C8_host_only_excluded_captain_included_witness :
    6 ∉ Rich.playerCandidates 0 ∅
        ({⟨5, Rich.CAPT_EMOJI⟩, ⟨6, Rich.HOST_EMOJI⟩} : Finset Rich.React) ∧
    5 ∈ Rich.playerCandidates 0 ∅
        ({⟨5, Rich.CAPT_EMOJI⟩, ⟨6, Rich.HOST_EMOJI⟩} : Finset Rich.React) :=
  by
  constructor
  · refine (C8_host_only_excluded_captain_included 0 _ _ 6 ?_).1 ?_ <;> decide
  · refine (C8_host_only_excluded_captain_included 0 _ _ 5 ?_).2 ?_ <;> decide

